import Mathlib

/-!
Verification of the response-normalization and tolerant JSON recovery
pipeline of the swift-ai-api repository.

The development shallowly embeds, over `List Char` / `String`:

* the text sanitizers of `src/mcp_server/mcp/agents/utils.py`
  (`escape_json_strings`, `remove_triple_backticks_from_outer_markdown`,
  `fix_unterminated_strings_in_json`, `escape_newlines_in_json_strings`,
  `fix_missing_commas_in_json`, `fix_omitted_elements_in_json`);
* a model of Python's strict `json.loads` (RFC 8259 grammar plus the
  CPython extensions `NaN` / `Infinity` / `-Infinity`), used by the agents;
* the tolerant parse pipelines `_parse_claude_response`
  (`src/mcp_server/mcp/agents/claude_agent.py`) and
  `_parse_gemini_response` (`src/mcp_server/mcp/agents/gemini_agent.py`),
  with the lenient third-party parser `demjson3.decode` kept as an
  uninterpreted parameter wherever the verified control flow never
  depends on it;
* `fix_malformed_json` of `src/utils/json_utils.py`;
* the pydantic-v2 models of `src/mcp_server/mcp/agents/ai_models.py`
  (`QuestionModel`, `QuestionValidation`, ...) as validating
  constructors, and the autofix block of
  `_process_generation_response` in
  `src/mcp_server/mcp/agents/google_agent.py`.

Python `str` values are modelled as `String` / `List Char`; Python
exceptions are modelled as `Except String` errors / `Option.none`;
Python dicts are modelled as ordered association lists (lookup takes
the last binding, matching dict-overwrite semantics).
-/

namespace SwiftAI

/-- A parsed JSON document (the "ParsedDocument" of the spec): the value
universe shared by the decoder model and the schema coercers.  Numbers
keep their source lexeme: no claim inspects a numeric value produced by
the decoder, and this avoids committing to a float semantics. -/
inductive Jv : Type where
  | jnull : Jv
  | jbool : Bool → Jv
  | jstr : String → Jv
  | jnum : String → Jv
  | jarr : List Jv → Jv
  | jobj : List (String × Jv) → Jv

/-- The backtick character (written by code point to keep the source
free of raw backticks). -/
def btick : Char := '\x60'

/-- Left brace, by code point. -/
def lbrace : Char := '\x7b'

/-- Right brace, by code point. -/
def rbrace : Char := '\x7d'

/-- The whitespace class stripped by Python's `str.strip()` and matched
by the regex class `\s`, restricted to ASCII (the repository's texts are
ASCII; the unicode extension of `\s` is irrelevant to every claim). -/
def isPySpace (c : Char) : Bool :=
  c = ' ' || c = '\t' || c = '\n' || c = '\r' || c = '\x0b' || c = '\x0c'

/-- Drop trailing characters satisfying `p` (helper for `str.strip` and
for trailing-`\s*` regex runs). -/
def dropTrailing (p : Char → Bool) (l : List Char) : List Char :=
  (l.reverse.dropWhile p).reverse

/-- Python `str.strip()` on a character list. -/
def pyStrip (l : List Char) : List Char :=
  dropTrailing isPySpace (l.dropWhile isPySpace)

/-- Python `str.strip(chars)` for a single strip character. -/
def pyStripChar (c : Char) (l : List Char) : List Char :=
  dropTrailing (· = c) (l.dropWhile (· = c))

/-- Python `str.find(ch)`: index of the first occurrence, `-1` if absent. -/
def pyFind (l : List Char) (c : Char) : Int :=
  match l.findIdx? (· = c) with
  | some i => (i : Int)
  | none => -1

/-- Python `str.rfind(ch)`: index of the last occurrence, `-1` if absent. -/
def pyRfind (l : List Char) (c : Char) : Int :=
  match l.reverse.findIdx? (· = c) with
  | some i => ((l.length : Int) - 1 - (i : Int))
  | none => -1

/-- Python slicing `s[a:b]` (negative indices count from the end, then
both bounds clamp to `[0, len]`). -/
def pySlice (l : List Char) (a b : Int) : List Char :=
  let n : Int := l.length
  let norm : Int → Nat := fun i =>
    (min (max (if i < 0 then i + n else i) 0) n).toNat
  (l.drop (norm a)).take (norm b - norm a)

/-- Python `str.capitalize()` (ASCII): first character uppercased, the
rest lowercased. -/
def pyCapitalize (s : String) : String :=
  match s.data with
  | [] => ""
  | c :: r => ⟨c.toUpper :: r.map Char.toLower⟩

/-- Model of `str.replace(t, rep)` for a single-character pattern `t`: every
occurrence of `t` is replaced by `rep`. -/
def replChar (t : Char) (rep : List Char) (l : List Char) : List Char :=
  l.flatMap (fun c => if c = t then rep else [c])

/-- Model of `re.sub(r'(?<!\\)X', rep, s)` for a single character `X`: replace
each occurrence of `t` whose predecessor in the original string is not a
backslash.  `prev` is the previous character of the original string. -/
def subNotAfterBackslash (t : Char) (rep : List Char) :
    Option Char → List Char → List Char
  | _, [] => []
  | prev, c :: r =>
      (if c = t && prev ≠ some '\\' then rep else [c]) ++
        subNotAfterBackslash t rep (some c) r

/-- Model of `escape_json_strings` (utils.py lines 3-26), string branch, on
character lists.  The source applies, in order:
`replace('\\','\\')`, `replace('"','\\"')`, `replace('\n','\\n')`,
`replace('\r','\\r')`, `replace('\t','\\t')`, then the three
`re.sub(r'(?<!\\)…')` passes for `\n`, `\t`, `\r` (no-ops in fact, since
the literal control characters were already replaced, but embedded
faithfully). -/
def escapeJsonList (l : List Char) : List Char :=
  let l1 := replChar '\\' ['\\', '\\'] l
  let l2 := replChar '"' ['\\', '"'] l1
  let l3 := replChar '\n' ['\\', 'n'] l2
  let l4 := replChar '\r' ['\\', 'r'] l3
  let l5 := replChar '\t' ['\\', 't'] l4
  let l6 := subNotAfterBackslash '\n' ['\\', 'n'] none l5
  let l7 := subNotAfterBackslash '\t' ['\\', 't'] none l6
  subNotAfterBackslash '\r' ['\\', 'r'] none l7

/-- Model of `escape_json_strings` on a string argument (the branch exercised by
`_parse_claude_response`, which passes the whole response text). -/
def escape_json_strings (s : String) : String :=
  ⟨escapeJsonList s.data⟩

/-- Model of `remove_triple_backticks_from_outer_markdown` (utils.py lines
29-40): `re.match(r'^```[a-zA-Z]*\s*([\s\S]*?)\s*```$', text.strip())`,
returning group 1 on a match and the original text otherwise.

Deterministic characterization of the regex on the stripped text `t`
(verified against CPython `re`): a match exists iff `t` starts with
three backticks, ends with three backticks and has length ≥ 6; the
captured group is then obtained from `t` by removing the leading fence,
the greedy `[a-zA-Z]*` run, the greedy `\s*` run, the trailing fence and
the maximal whitespace run preceding it (the lazy group plus trailing
`\s*```$` backtracking). -/
def removeOuterList (l : List Char) : List Char :=
  let t := pyStrip l
  let fen : List Char := [btick, btick, btick]
  if t.take 3 = fen && t.reverse.take 3 = fen && decide (6 ≤ t.length) then
    let t3 := ((t.drop 3).dropWhile Char.isAlpha).dropWhile isPySpace
    (((t3.reverse.drop 3).dropWhile isPySpace)).reverse
  else l

/-- Model of `remove_triple_backticks_from_outer_markdown` on strings. -/
def remove_triple_backticks_from_outer_markdown (s : String) : String :=
  ⟨removeOuterList s.data⟩

/-- The character-scan loop of `fix_unterminated_strings_in_json`
(utils.py lines 46-73).  State: `inS` = inside a double-quoted string,
`esc` = previous character opened a backslash escape.  Every input
character is appended unchanged; a closing quote is appended at the end
iff the scan ends inside a string. -/
def fixUntermGo (inS esc : Bool) : List Char → List Char
  | [] => if inS then ['"'] else []
  | c :: r =>
      if !inS then
        c :: fixUntermGo (c = '"') esc r
      else if esc then
        c :: fixUntermGo true false r
      else if c = '\\' then
        c :: fixUntermGo true true r
      else if c = '"' then
        c :: fixUntermGo false esc r
      else
        c :: fixUntermGo true esc r

/-- Model of `fix_unterminated_strings_in_json` on strings. -/
def fix_unterminated_strings_in_json (s : String) : String :=
  ⟨fixUntermGo false false s.data⟩

/-- The final in-string state of the scan of `fixUntermGo`: whether the
text ends inside an unterminated quoted string (escape-aware). -/
def endsInStringGo (inS esc : Bool) : List Char → Bool
  | [] => inS
  | c :: r =>
      if !inS then endsInStringGo (c = '"') esc r
      else if esc then endsInStringGo true false r
      else if c = '\\' then endsInStringGo true true r
      else if c = '"' then endsInStringGo false esc r
      else endsInStringGo true esc r

/-- Whether a text ends inside an unterminated quoted string, under the
escape-aware scan of `fix_unterminated_strings_in_json`. -/
def endsInsideString (s : String) : Bool :=
  endsInStringGo false false s.data

/-- Model of `escape_newlines_in_json_strings` (utils.py lines 78-110): the
control-character escaper.  Inside double-quoted string regions only,
literal newline and carriage-return characters are replaced by the
two-character escapes; backslash escapes are respected. -/
def escNlGo (inS esc : Bool) : List Char → List Char
  | [] => []
  | c :: r =>
      if !inS then
        c :: escNlGo (c = '"') esc r
      else if esc then
        c :: escNlGo true false r
      else if c = '\\' then
        c :: escNlGo true true r
      else if c = '"' then
        c :: escNlGo false esc r
      else if c = '\n' then
        '\\' :: 'n' :: escNlGo true esc r
      else if c = '\r' then
        '\\' :: 'r' :: escNlGo true esc r
      else
        c :: escNlGo true esc r

/-- Model of `escape_newlines_in_json_strings` on strings. -/
def escape_newlines_in_json_strings (s : String) : String :=
  ⟨escNlGo false false s.data⟩

/-- The single-character set matched by the pattern of
`fix_missing_commas_in_json` (utils.py line 127),
`r'([\]"|\d|\})\s+(?=[\"]|\[|\{)'`.  The character class opened at `[`
is only closed by the unescaped `]` inside the intended lookahead, so
the class contains `] " | \d } ) \s + ( ? = [ "`, and the remaining
pattern `|\[|\{` adds the alternatives `[` and `{`; the whole pattern
matches exactly one character of this set (verified against CPython
`re`). -/
def missingCommaMatch (c : Char) : Bool :=
  c = ']' || c = '"' || c = '|' || c.isDigit || c = rbrace || c = ')' ||
    isPySpace c || c = '+' || c = '(' || c = '?' || c = '=' || c = '[' ||
    c = lbrace

/-- Model of `fix_missing_commas_in_json` (utils.py lines 115-128):
`re.sub(pattern, r'\1, ', text)` with the broken pattern above — every
matched character is replaced by itself followed by `", "`. -/
def fix_missing_commas_in_json (s : String) : String :=
  ⟨s.data.flatMap (fun c => if missingCommaMatch c then [c, ',', ' '] else [c])⟩

/-- One attempt of the pattern `r'"[^"]+"\s*:\s*,'` of
`fix_omitted_elements_in_json` at the current position: on success,
returns the remainder after the matched span. -/
def omittedKeyMatch : List Char → Option (List Char)
  | '"' :: r =>
      let m := r.takeWhile (· ≠ '"')
      if m.isEmpty then none
      else
        match r.drop m.length with
        | '"' :: r2 =>
            match (r2.dropWhile isPySpace) with
            | ':' :: r3 =>
                match r3.dropWhile isPySpace with
                | ',' :: r4 => some r4
                | _ => none
            | _ => none
        | _ => none
  | _ => none

/-- Left-to-right non-overlapping `re.sub(r'"[^"]+"\s*:\s*,', '', text)`
(fuelled by the input length; every match consumes at least one
character). -/
def omittedKeySub : Nat → List Char → List Char
  | 0, l => l
  | _ + 1, [] => []
  | fuel + 1, c :: r =>
      match omittedKeyMatch (c :: r) with
      | some rest => omittedKeySub fuel rest
      | none => c :: omittedKeySub fuel r

/-- Left-to-right non-overlapping `re.sub(r',\s*([}\]])', r'\1', text)`:
a comma, optional whitespace and a closing brace or bracket collapse to
the brace or bracket. -/
def trailingCommaSub : Nat → List Char → List Char
  | 0, l => l
  | _ + 1, [] => []
  | fuel + 1, c :: r =>
      if c = ',' then
        match r.dropWhile isPySpace with
        | b :: r2 =>
            if b = rbrace || b = ']' then b :: trailingCommaSub fuel r2
            else c :: trailingCommaSub fuel r
        | [] => c :: trailingCommaSub fuel r
      else c :: trailingCommaSub fuel r

/-- Model of `fix_omitted_elements_in_json` (utils.py lines 133-146): remove
key-value pairs with an omitted value, then remove trailing commas
before `}` or `]`. -/
def fix_omitted_elements_in_json (s : String) : String :=
  let l1 := omittedKeySub s.data.length s.data
  ⟨trailingCommaSub l1.length l1⟩

/-! ### A model of Python's strict `json.loads`

`json.loads` is the Python standard library's strict JSON decoder.  It
accepts exactly the RFC 8259 grammar plus the CPython extensions `NaN`,
`Infinity` and `-Infinity`, skips the whitespace set `space/tab/LF/CR`,
rejects raw control characters inside string literals (default
`strict=True`), and requires the whole input to be one value followed
only by whitespace.  The recursive descent below is fuelled; the fuel
`length + 1` always suffices because every recursive descent step
consumes at least one character. -/

/-- The JSON whitespace set skipped by `json.loads`. -/
def skipWs : List Char → List Char
  | [] => []
  | c :: r => if c = ' ' || c = '\t' || c = '\n' || c = '\r' then skipWs r else c :: r

/-- Whether a character is a hexadecimal digit. -/
def isHexDig (c : Char) : Bool :=
  c.isDigit || ('a' ≤ c && c ≤ 'f') || ('A' ≤ c && c ≤ 'F')

/-- Numeric value of a hexadecimal digit. -/
def hexVal (c : Char) : Nat :=
  if c.isDigit then c.toNat - 48
  else if 'a' ≤ c && c ≤ 'f' then c.toNat - 87
  else c.toNat - 55

/-- JSON string-literal body: characters after the opening quote, up to
and including the closing quote.  Returns the decoded content and the
remainder.  Raw control characters (code < 0x20) are rejected, matching
`strict=True`.  A `\uXXXX` escape decodes its code unit (surrogate-pair
combination is not modelled; no claim involves `\u` escapes). -/
def pStr : List Char → Option (List Char × List Char)
  | [] => none
  | '"' :: r => some ([], r)
  | '\\' :: '"' :: r => (pStr r).map (fun p => ('"' :: p.1, p.2))
  | '\\' :: '\\' :: r => (pStr r).map (fun p => ('\\' :: p.1, p.2))
  | '\\' :: '/' :: r => (pStr r).map (fun p => ('/' :: p.1, p.2))
  | '\\' :: 'b' :: r => (pStr r).map (fun p => ('\x08' :: p.1, p.2))
  | '\\' :: 'f' :: r => (pStr r).map (fun p => ('\x0c' :: p.1, p.2))
  | '\\' :: 'n' :: r => (pStr r).map (fun p => ('\n' :: p.1, p.2))
  | '\\' :: 'r' :: r => (pStr r).map (fun p => ('\r' :: p.1, p.2))
  | '\\' :: 't' :: r => (pStr r).map (fun p => ('\t' :: p.1, p.2))
  | '\\' :: 'u' :: h1 :: h2 :: h3 :: h4 :: r =>
      if isHexDig h1 && isHexDig h2 && isHexDig h3 && isHexDig h4 then
        (pStr r).map (fun p =>
          (Char.ofNat (4096 * hexVal h1 + 256 * hexVal h2 + 16 * hexVal h3 + hexVal h4)
            :: p.1, p.2))
      else none
  | '\\' :: _ => none
  | c :: r =>
      if c.toNat < 32 then none
      else (pStr r).map (fun p => (c :: p.1, p.2))

/-- Characters that can occur in a JSON number lexeme (the superset
munched before validating against the number grammar). -/
def numChar (c : Char) : Bool :=
  c.isDigit || c = '-' || c = '+' || c = '.' || c = 'e' || c = 'E'

/-- Optional fraction and exponent: `(\.[0-9]+)?([eE][+-]?[0-9]+)?`,
requiring the whole remainder to be consumed. -/
def fracExpOk (l : List Char) : Bool :=
  let afterFrac : Option (List Char) :=
    match l with
    | '.' :: r => if (r.takeWhile Char.isDigit).isEmpty then none
                  else some (r.dropWhile Char.isDigit)
    | _ => some l
  match afterFrac with
  | none => false
  | some l2 =>
      match l2 with
      | [] => true
      | e :: r =>
          if e = 'e' || e = 'E' then
            let r2 := match r with
                      | s :: r' => if s = '+' || s = '-' then r' else r
                      | [] => r
            !(r2.takeWhile Char.isDigit).isEmpty &&
              (r2.dropWhile Char.isDigit).isEmpty
          else false

/-- Whether a lexeme matches the JSON number grammar
`-?(0|[1-9][0-9]*)(\.[0-9]+)?([eE][+-]?[0-9]+)?` in full. -/
def numLexOk (l : List Char) : Bool :=
  let body := match l with
              | '-' :: r => r
              | _ => l
  match body with
  | '0' :: r => fracExpOk r
  | c :: r => if '1' ≤ c && c ≤ '9' then fracExpOk (r.dropWhile Char.isDigit) else false
  | [] => false

/-- Leaf values at the current position: the literals `true`, `false`,
`null`, `NaN`, `Infinity`, `-Infinity` (the CPython scanner checks these
by exact prefix, with no word boundary), then a number.  A number is
accepted iff the maximal run of number characters matches the number
grammar; this is equivalent to CPython's regex-match-then-delimiter
behaviour because any leftover number character makes the enclosing
context fail in both formulations. -/
def pAtom (t : List Char) : Option (Jv × List Char) :=
  if t.take 4 = "true".data then some (Jv.jbool true, t.drop 4)
  else if t.take 5 = "false".data then some (Jv.jbool false, t.drop 5)
  else if t.take 4 = "null".data then some (Jv.jnull, t.drop 4)
  else if t.take 3 = "NaN".data then some (Jv.jnum "NaN", t.drop 3)
  else if t.take 8 = "Infinity".data then some (Jv.jnum "Infinity", t.drop 8)
  else if t.take 9 = "-Infinity".data then some (Jv.jnum "-Infinity", t.drop 9)
  else
    match t with
    | c :: _ =>
        if c.isDigit || c = '-' then
          let run := t.takeWhile numChar
          if numLexOk run then some (Jv.jnum ⟨run⟩, t.dropWhile numChar)
          else none
        else none
    | [] => none

mutual

/-- One JSON value at the current position (after optional whitespace),
returning the value and the remainder. -/
def pVal : Nat → List Char → Option (Jv × List Char)
  | 0, _ => none
  | n + 1, s =>
      match skipWs s with
      | [] => none
      | c :: r =>
          if c = lbrace then pObj n r
          else if c = '[' then pArr n r
          else if c = '"' then (pStr r).map (fun p => (Jv.jstr ⟨p.1⟩, p.2))
          else pAtom (c :: r)

/-- Object body after the opening brace: an empty object, or a first
`"key": value` member followed by the member loop. -/
def pObj : Nat → List Char → Option (Jv × List Char)
  | 0, _ => none
  | n + 1, s =>
      match skipWs s with
      | [] => none
      | c :: r =>
          if c = rbrace then some (Jv.jobj [], r)
          else if c = '"' then
            match pStr r with
            | some (k, r2) =>
                (match skipWs r2 with
                 | ':' :: r3 =>
                     match pVal n r3 with
                     | some (v, r4) => pMembers n [(⟨k⟩, v)] r4
                     | none => none
                 | _ => none)
            | none => none
          else none

/-- Object member loop: a closing brace ends the object (later duplicate
keys are kept in order; lookups take the last binding, matching Python
dict overwrite), a comma demands another `"key": value` member. -/
def pMembers : Nat → List (String × Jv) → List Char → Option (Jv × List Char)
  | 0, _, _ => none
  | n + 1, acc, s =>
      match skipWs s with
      | [] => none
      | c :: r =>
          if c = rbrace then some (Jv.jobj acc, r)
          else if c = ',' then
            match skipWs r with
            | '"' :: r1 =>
                (match pStr r1 with
                 | some (k, r2) =>
                     (match skipWs r2 with
                      | ':' :: r3 =>
                          match pVal n r3 with
                          | some (v, r4) => pMembers n (acc ++ [(⟨k⟩, v)]) r4
                          | none => none
                      | _ => none)
                 | none => none)
            | _ => none
          else none

/-- Array body after the opening bracket. -/
def pArr : Nat → List Char → Option (Jv × List Char)
  | 0, _ => none
  | n + 1, s =>
      match skipWs s with
      | [] => none
      | c :: r =>
          if c = ']' then some (Jv.jarr [], r)
          else
            match pVal n (c :: r) with
            | some (v, r2) => pElems n [v] r2
            | none => none

/-- Array element loop: a closing bracket ends the array, a comma
demands another value. -/
def pElems : Nat → List Jv → List Char → Option (Jv × List Char)
  | 0, _, _ => none
  | n + 1, acc, s =>
      match skipWs s with
      | [] => none
      | c :: r =>
          if c = ']' then some (Jv.jarr acc, r)
          else if c = ',' then
            match pVal n r with
            | some (v, r2) => pElems n (acc ++ [v]) r2
            | none => none
          else none

end

/-- Model of Python `json.loads`: parse one value and require the
remainder to be whitespace only ("Extra data" otherwise); any failure is
a `JSONDecodeError`, modelled as `none`. -/
def jsonLoads (s : String) : Option Jv :=
  match pVal (s.data.length + 1) s.data with
  | some (v, r) => if skipWs r = [] then some v else none
  | none => none

/-! ### The Claude response parser (`_parse_claude_response`,
claude_agent.py lines 743-804) -/

/-- Model of `str.find` on strings. -/
def pyFindS (s : String) (c : Char) : Int := pyFind s.data c

/-- Model of `str.rfind` on strings. -/
def pyRfindS (s : String) (c : Char) : Int := pyRfind s.data c

/-- Model of `s[a:b]` on strings. -/
def pySliceS (s : String) (a b : Int) : String := ⟨pySlice s.data a b⟩

/-- Split a character list at the first occurrence of a triple-backtick
fence: returns the part before the fence and the part after it. -/
def splitAtFence : List Char → Option (List Char × List Char)
  | [] => none
  | c :: r =>
      if c = btick then
        match r with
        | c2 :: c3 :: r2 =>
            if c2 = btick && c3 = btick then some ([], r2)
            else (splitAtFence r).map (fun p => (c :: p.1, p.2))
        | _ => (splitAtFence r).map (fun p => (c :: p.1, p.2))
      else (splitAtFence r).map (fun p => (c :: p.1, p.2))

/-- Alternative `` ```json\s*([\s\S]*?)\s*``` `` of the Claude search
pattern, attempted at the current position: requires the literal
`` ```json ``, then a greedy whitespace run, then the lazy group up to
the next closing fence; the lazy group combined with the greedy `\s*`
before the closing fence strips the maximal whitespace run before the
first fence occurrence (verified against CPython `re`). -/
def tryFencedJson (l : List Char) : Option (List Char) :=
  if l.take 7 = "```json".data then
    let body := (l.drop 7).dropWhile isPySpace
    (splitAtFence body).map (fun p => dropTrailing isPySpace p.1)
  else none

/-- Alternative `` ```\s*([\s\S]*?)\s*``` `` of the Claude search
pattern, attempted at the current position. -/
def tryFenced (l : List Char) : Option (List Char) :=
  if l.take 3 = [btick, btick, btick] then
    let body := (l.drop 3).dropWhile isPySpace
    (splitAtFence body).map (fun p => dropTrailing isPySpace p.1)
  else none

/-- Alternative `(\{[\s\S]*\})` attempted at the current position: an
opening brace here with some closing brace later; the greedy group runs
to the last closing brace of the whole remainder. -/
def tryBrace (l : List Char) : Option (List Char) :=
  match l with
  | c :: r =>
      if c = lbrace && r.contains rbrace then
        some (c :: ((r.reverse.dropWhile (· ≠ rbrace)).reverse))
      else none
  | _ => none

/-- Model of `re.search` for the Claude pattern
`` r'```json\s*([\s\S]*?)\s*```|```\s*([\s\S]*?)\s*```|(\{[\s\S]*\})' ``
followed by the source's `match.group(1) or match.group(2) or
match.group(3)`: positions are scanned left to right, alternatives in
order.  `none` = no match at all; `some none` = a match whose selected
group chain is falsy (an empty fenced group makes the `or` chain yield
Python `None`, and the subsequent `.find` call raises
`AttributeError`); `some (some g)` = the extracted candidate. -/
def claudeSearch : List Char → Option (Option String)
  | [] => none
  | c :: r =>
      match tryFencedJson (c :: r) with
      | some g => some (if g.isEmpty then none else some ⟨g⟩)
      | none =>
          match tryFenced (c :: r) with
          | some g => some (if g.isEmpty then none else some ⟨g⟩)
          | none =>
              match tryBrace (c :: r) with
              | some g => some (some ⟨g⟩)
              | none => claudeSearch r

/-- The strict first stage of `_parse_claude_response` (lines 755-764):
strip an outer markdown fence, close unterminated strings, apply the
string escaper to the whole response, and `json.loads` the result. -/
def claudeStrict (s : String) : Option Jv :=
  jsonLoads (escape_json_strings
    (fix_unterminated_strings_in_json
      (remove_triple_backticks_from_outer_markdown s)))

/-- The `except json.JSONDecodeError` fallback branch of
`_parse_claude_response` (lines 765-804), with the lenient parser
`demjson3.decode` as the parameter `dj` (`none` = the library raised).
The source has two `except Exception as e_demjson:` clauses on the same
`try`; Python dispatches to the first matching clause, so the second
clause — the entire hard-cut block of lines 786-801 — is unreachable
and the first clause re-raises the demjson error. -/
def claudeFallback (dj : String → Option Jv) (s : String) : Except String Jv :=
  match claudeSearch s.data with
  | none => Except.error "Could not find JSON object in Claude response."
  | some none => Except.error "AttributeError: NoneType object has no attribute find"
  | some (some jstr) =>
      let a := pyFindS jstr lbrace
      let b := pyRfindS jstr rbrace + 1
      let cleaned := pySliceS jstr a b
      match jsonLoads cleaned with
      | some d => Except.ok d
      | none =>
          match dj cleaned with
          | some d => Except.ok d
          | none => Except.error "Failed to parse extracted JSON"

/-- Model of `_parse_claude_response` up to (and not including) the final
`schema_type.model_validate(data)` call: the decoded document or the
propagated parse error. -/
def parse_claude_response (dj : String → Option Jv) (s : String) : Except String Jv :=
  match claudeStrict s with
  | some d => Except.ok d
  | none => claudeFallback dj s

/-! ### The Gemini response parser (`_parse_gemini_response`,
gemini_agent.py lines 411-476) -/

/-- Model of `re.search(r'(\{[\s\S]*\})', text)`: matches iff the first `{` has
some `}` after it; the group then runs from the first `{` to the last
`}` (leftmost match position, greedy star). -/
def geminiRegexSearch (s : String) : Option String :=
  let i := pyFindS s lbrace
  let j := pyRfindS s rbrace
  if i ≠ -1 && j ≠ -1 && i < j then some (pySliceS s i (j + 1)) else none

/-- The `except` branch of `_parse_gemini_response` (lines 432-466).
After the `if match:` statement completes with successfully parsed
`data`, the source executes `logger.error(f"... {e}")` where `e` is an
undefined name, so every successful parse inside this branch still
raises `NameError`; the branch can therefore only produce errors. -/
def geminiStage2 (dj : String → Option Jv) (s : String) : Except String Jv :=
  match geminiRegexSearch s with
  | none => Except.error "Could not find JSON object in Gemini response."
  | some js =>
      match jsonLoads js with
      | some _ => Except.error "NameError: name e is not defined"
      | none =>
          match dj js with
          | some _ => Except.error "NameError: name e is not defined"
          | none =>
              let lb := pyRfindS js rbrace
              if lb = -1 then
                Except.error "Could not parse JSON from Gemini response"
              else
                match dj (pySliceS js 0 (lb + 1)) with
                | some _ => Except.error "NameError: name e is not defined"
                | none => Except.error "Could not parse JSON from Gemini response after hard cut"

/-- Model of `_parse_gemini_response` up to the schema-validation call: the raw
stage slices the text from the first `{` to the last `}` and parses it
with `json.loads` then `demjson3.decode`; any failure falls into the
regex/hard-cut stage, which (see `geminiStage2`) can only error. -/
def parse_gemini_response (dj : String → Option Jv) (s : String) : Except String Jv :=
  let start := pyFindS s lbrace
  let e := pyRfindS s rbrace
  if start = -1 || e = -1 || start > e then geminiStage2 dj s
  else
    let jsonStr := pySliceS s start (e + 1)
    match jsonLoads jsonStr with
    | some d => Except.ok d
    | none =>
        match dj jsonStr with
        | some d => Except.ok d
        | none => geminiStage2 dj s

/-! ### `fix_malformed_json` (src/utils/json_utils.py lines 3-12) -/

/-- Model of `fix_malformed_json`: strict parse; on failure strip whitespace and
backticks and retry; on failure return the default object
`{"error": "Bad JSON"}` (the function never raises). -/
def fix_malformed_json (s : String) : Jv :=
  match jsonLoads s with
  | some d => d
  | none =>
      match jsonLoads ⟨pyStripChar btick (pyStrip s.data)⟩ with
      | some d => d
      | none => Jv.jobj [("error", Jv.jstr "Bad JSON")]

/-- Whether an `Except` result is an error (a raised Python exception). -/
def isErr {α : Type} : Except String α → Bool
  | Except.error _ => true
  | Except.ok _ => false

/-! ### The pydantic models of ai_models.py as validating constructors

The repository uses pydantic v2 (`model_validate`).  Relevant v2
semantics, encoded below: a field with no default is required and its
absence is a `ValidationError`; extra keys are ignored (no
`model_config`, no aliases are declared anywhere in ai_models.py);
`Optional[str]` without a default is still required but accepts `None`.
Validation failures are `Except.error`. -/

/-- Lookup in a Python dict modelled as an ordered association list:
the last binding wins (dict assignment overwrites). -/
def jLookup (kvs : List (String × Jv)) (k : String) : Option Jv :=
  (kvs.reverse.find? (fun p => p.1 = k)).map (fun p => p.2)

/-- Python dict assignment `d[k] = v`: update the existing binding in
place, or append a new one. -/
def jSet (kvs : List (String × Jv)) (k : String) (v : Jv) : List (String × Jv) :=
  if kvs.any (fun p => p.1 = k) then
    kvs.map (fun p => if p.1 = k then (k, v) else p)
  else kvs ++ [(k, v)]

/-- Required field access on a document (pydantic: "Field required"). -/
def getF (d : Jv) (k : String) : Except String Jv :=
  match d with
  | Jv.jobj kvs =>
      match jLookup kvs k with
      | some v => Except.ok v
      | none => Except.error (k ++ ": Field required")
  | _ => Except.error "Input should be a valid dictionary"

/-- A string-typed field (v2 does not coerce numbers to strings). -/
def asStr : Jv → Except String String
  | Jv.jstr v => Except.ok v
  | _ => Except.error "Input should be a valid string"

/-- An `Optional[str]`-typed field. -/
def asOptStr : Jv → Except String (Option String)
  | Jv.jstr v => Except.ok (some v)
  | Jv.jnull => Except.ok none
  | _ => Except.error "Input should be a valid string"

/-- A bool-typed field. -/
def asBool : Jv → Except String Bool
  | Jv.jbool v => Except.ok v
  | _ => Except.error "Input should be a valid boolean"

/-- Integer value of a decimal lexeme with optional leading minus;
`none` when the lexeme is not a plain integer. -/
def lexToInt : List Char → Option Int
  | [] => none
  | l =>
      let neg := l.head? = some '-'
      let ds := if neg then l.tail else l
      if !ds.isEmpty && ds.all Char.isDigit then
        let n : Int := ds.foldl (fun a c => a * 10 + ((c.toNat : Int) - 48)) 0
        some (if neg then -n else n)
      else none

/-- An int-typed field (an integral numeric lexeme). -/
def asInt : Jv → Except String Int
  | Jv.jnum lex =>
      match lexToInt lex.data with
      | some i => Except.ok i
      | none => Except.error "Input should be a valid integer"
  | _ => Except.error "Input should be a valid integer"

/-- A `List[str]`-typed field. -/
def asStrList : Jv → Except String (List String)
  | Jv.jarr xs => xs.mapM asStr
  | _ => Except.error "Input should be a valid list"

/-- Model of `TopicModel` (ai_models.py lines 61-65). -/
structure TopicT where
  name : String
  platform : String
  technology : Option String

/-- Model of `CodeTestModel` (ai_models.py lines 72-75). -/
structure CodeTestT where
  snippet : String
  options : List String
  answer : String

/-- Model of `AnswerLevelModel` (ai_models.py lines 77-87). -/
structure AnswerLevelT where
  name : String
  answer : String
  tests : List CodeTestT
  evaluationCriteria : String

/-- Model of `AnswerLevels` (ai_models.py lines 89-92). -/
structure AnswerLevelsT where
  beginner : AnswerLevelT
  intermediate : AnswerLevelT
  advanced : AnswerLevelT

/-- Model of `QuestionModel` (ai_models.py lines 94-98). -/
structure QuestionT where
  topic : TopicT
  text : String
  tags : List String
  answerLevels : AnswerLevelsT

/-- Model of `TopicModel.model_validate`. -/
def validateTopic (d : Jv) : Except String TopicT := do
  let name ← getF d "name" >>= asStr
  let platform ← getF d "platform" >>= asStr
  let technology ← getF d "technology" >>= asOptStr
  pure ⟨name, platform, technology⟩

/-- Model of `CodeTestModel.model_validate`. -/
def validateCodeTest (d : Jv) : Except String CodeTestT := do
  let snippet ← getF d "snippet" >>= asStr
  let options ← getF d "options" >>= asStrList
  let answer ← getF d "answer" >>= asStr
  pure ⟨snippet, options, answer⟩

/-- Model of `AnswerLevelModel.model_validate`, including the
`field_validator('name')` restricting the level name to
Beginner/Intermediate/Advanced. -/
def validateAnswerLevel (d : Jv) : Except String AnswerLevelT := do
  let name ← getF d "name" >>= asStr
  let name ← if name = "Beginner" || name = "Intermediate" || name = "Advanced"
             then pure name
             else Except.error ("Invalid name: " ++ name)
  let answer ← getF d "answer" >>= asStr
  let tests ← getF d "tests" >>=
    (fun v => match v with
      | Jv.jarr xs => xs.mapM validateCodeTest
      | _ => Except.error "Input should be a valid list")
  let crit ← getF d "evaluationCriteria" >>= asStr
  pure ⟨name, answer, tests, crit⟩

/-- Model of `AnswerLevels.model_validate`. -/
def validateAnswerLevels (d : Jv) : Except String AnswerLevelsT := do
  let b ← getF d "beginner" >>= validateAnswerLevel
  let i ← getF d "intermediate" >>= validateAnswerLevel
  let a ← getF d "advanced" >>= validateAnswerLevel
  pure ⟨b, i, a⟩

/-- Model of `QuestionModel.model_validate`. -/
def validateQuestion (d : Jv) : Except String QuestionT := do
  let topic ← getF d "topic" >>= validateTopic
  let text ← getF d "text" >>= asStr
  let tags ← getF d "tags" >>= asStrList
  let als ← getF d "answerLevels" >>= validateAnswerLevels
  pure ⟨topic, text, tags, als⟩

/-! ### The google_agent autofix block
(`_process_generation_response`, google_agent.py lines 312-340) -/

/-- One iteration of the stub-fill loop: if `level` is absent from
`answer_levels` or not bound to a dict, bind it to the stub
`{'name': level.capitalize(), 'answer': '', 'tests': [],
'evaluation_criteria': ''}`.  (Note the stub's snake_case key
`evaluation_criteria`, verbatim from the source.) -/
def stubLevel (m : List (String × Jv)) (lvl : String) : List (String × Jv) :=
  match jLookup m lvl with
  | some (Jv.jobj _) => m
  | _ => jSet m lvl (Jv.jobj
      [("name", Jv.jstr (pyCapitalize lvl)),
       ("answer", Jv.jstr ""),
       ("tests", Jv.jarr []),
       ("evaluation_criteria", Jv.jstr "")])

/-- The `--- AUTOFIX ---` block of `_process_generation_response`:
wrap a bare-string `topic` into a topic object taking `platform` and
`technology` from the request context (`getattr(..., '...', '') or ''`),
then replace a non-dict `answerLevels` by `{}` and stub-fill the three
levels in order. -/
def googleAutofix (args : List (String × Jv)) (platform technology : String) :
    List (String × Jv) :=
  let args :=
    match jLookup args "topic" with
    | some (Jv.jstr t) =>
        jSet args "topic" (Jv.jobj
          [("name", Jv.jstr t),
           ("platform", Jv.jstr (if platform = "" then "" else platform)),
           ("technology", Jv.jstr (if technology = "" then "" else technology))])
    | _ => args
  let als := match jLookup args "answerLevels" with
             | some (Jv.jobj m) => m
             | _ => []
  let als := stubLevel (stubLevel (stubLevel als "beginner") "intermediate") "advanced"
  jSet args "answerLevels" (Jv.jobj als)

/-- Model of `_process_generation_response` from the AUTOFIX block to the
`QuestionModel.model_validate(generated_args)` call. -/
def google_process_generation (args : List (String × Jv))
    (platform technology : String) : Except String QuestionT :=
  validateQuestion (Jv.jobj (googleAutofix args platform technology))

/-! ### `QuestionValidation` (ai_models.py lines 123-230) and
`_process_validation_response` (openai_agent.py lines 856-948) -/

/-- Model of `QuestionValidation`: 16 boolean checks, 6 scores, 6 feedback texts,
comments, recommendations and the derived `passed`. -/
structure ValidationT where
  is_text_clear : Bool
  is_question_correspond : Bool
  is_question_not_trivial : Bool
  do_answer_levels_exist : Bool
  are_answer_levels_valid : Bool
  has_evaluation_criteria : Bool
  are_answer_levels_different : Bool
  do_tests_exist : Bool
  do_tags_exist : Bool
  do_test_options_exist : Bool
  is_question_text_different_from_existing_questions : Bool
  are_test_options_numbered : Bool
  does_answer_contain_option_number : Bool
  are_code_blocks_marked_if_they_exist : Bool
  does_snippet_have_question : Bool
  does_snippet_have_code : Bool
  clarity_score : Int
  relevance_score : Int
  difficulty_score : Int
  structure_score : Int
  code_quality_score : Int
  quality_score : Int
  clarity_feedback : String
  relevance_feedback : String
  difficulty_feedback : String
  structure_feedback : String
  code_quality_feedback : String
  comments : String
  recommendations : List String
  passed : Bool

/-- Model of `QuestionValidation.model_validate`: fields in declaration order;
the v1-style `@validator('passed')` recomputes `passed` from
`quality_score` whenever `quality_score` validated (it is a required
earlier field, so on every successful validation), overriding the
supplied value. -/
def validateQuestionValidation (d : Jv) : Except String ValidationT := do
  let b1 ← getF d "is_text_clear" >>= asBool
  let b2 ← getF d "is_question_correspond" >>= asBool
  let b3 ← getF d "is_question_not_trivial" >>= asBool
  let b4 ← getF d "do_answer_levels_exist" >>= asBool
  let b5 ← getF d "are_answer_levels_valid" >>= asBool
  let b6 ← getF d "has_evaluation_criteria" >>= asBool
  let b7 ← getF d "are_answer_levels_different" >>= asBool
  let b8 ← getF d "do_tests_exist" >>= asBool
  let b9 ← getF d "do_tags_exist" >>= asBool
  let b10 ← getF d "do_test_options_exist" >>= asBool
  let b11 ← getF d "is_question_text_different_from_existing_questions" >>= asBool
  let b12 ← getF d "are_test_options_numbered" >>= asBool
  let b13 ← getF d "does_answer_contain_option_number" >>= asBool
  let b14 ← getF d "are_code_blocks_marked_if_they_exist" >>= asBool
  let b15 ← getF d "does_snippet_have_question" >>= asBool
  let b16 ← getF d "does_snippet_have_code" >>= asBool
  let clarity ← getF d "clarity_score" >>= asInt
  let relevance ← getF d "relevance_score" >>= asInt
  let difficulty ← getF d "difficulty_score" >>= asInt
  let structScore ← getF d "structure_score" >>= asInt
  let codeQ ← getF d "code_quality_score" >>= asInt
  let quality ← getF d "quality_score" >>= asInt
  let f1 ← getF d "clarity_feedback" >>= asStr
  let f2 ← getF d "relevance_feedback" >>= asStr
  let f3 ← getF d "difficulty_feedback" >>= asStr
  let f4 ← getF d "structure_feedback" >>= asStr
  let f5 ← getF d "code_quality_feedback" >>= asStr
  let f6 ← getF d "comments" >>= asStr
  let recs ← getF d "recommendations" >>= asStrList
  let _passedGiven ← getF d "passed" >>= asBool
  pure ⟨b1, b2, b3, b4, b5, b6, b7, b8, b9, b10, b11, b12, b13, b14, b15, b16,
        clarity, relevance, difficulty, structScore, codeQ, quality,
        f1, f2, f3, f4, f5, f6, recs, decide (7 ≤ quality)⟩

/-- Model of `_process_validation_response` (openai_agent.py) applied to a
pydantic-validated `QuestionValidation`: the `hasattr` and `isinstance`
checks always hold on a validated model; the score-range checks raise
`ValueError` for a score outside 1..10; the final cross-check compares
`passed` against `quality_score >= 7`. -/
def openai_process_validation (d : Jv) : Except String ValidationT := do
  let v ← validateQuestionValidation d
  let scores := [v.quality_score, v.clarity_score, v.relevance_score,
                 v.difficulty_score, v.structure_score, v.code_quality_score]
  if scores.all (fun sc => 1 ≤ sc && sc ≤ 10) then
    if v.passed = decide (7 ≤ v.quality_score) then pure v
    else Except.error "passed status does not match quality_score"
  else Except.error "score must be between 1 and 10"

/-! ### Concrete documents and inputs used by the claims -/

/-- A fully-populated answer level (valid under `AnswerLevelModel`). -/
def goodLevel (nm : String) : Jv :=
  Jv.jobj [("name", Jv.jstr nm), ("answer", Jv.jstr "a"),
           ("tests", Jv.jarr []), ("evaluationCriteria", Jv.jstr "c")]

/-- A valid topic object. -/
def topicDoc : Jv :=
  Jv.jobj [("name", Jv.jstr "ARC"), ("platform", Jv.jstr "iOS"),
           ("technology", Jv.jstr "Swift")]

/-- A Question-shaped document whose `answerLevels` is missing the
`advanced` key (beginner and intermediate are fully valid). -/
def argsMissingAdv : List (String × Jv) :=
  [("topic", topicDoc), ("text", Jv.jstr "Q?"), ("tags", Jv.jarr [Jv.jstr "t"]),
   ("answerLevels", Jv.jobj
     [("beginner", goodLevel "Beginner"), ("intermediate", goodLevel "Intermediate")])]

/-- A Question-shaped document whose `answerLevels` is missing all three
levels. -/
def argsMissingAll : List (String × Jv) :=
  [("topic", topicDoc), ("text", Jv.jstr "Q?"), ("tags", Jv.jarr [Jv.jstr "t"]),
   ("answerLevels", Jv.jobj [])]

/-- A parsed document whose `topic` is the bare string
`"Memory Management"`. -/
def argsC5 : List (String × Jv) :=
  [("topic", Jv.jstr "Memory Management"), ("text", Jv.jstr "Q?"),
   ("tags", Jv.jarr [])]

/-- A complete validation document with `quality_score = 8` and
`passed = false`. -/
def docC4 : Jv := Jv.jobj
  [("is_text_clear", Jv.jbool true), ("is_question_correspond", Jv.jbool true),
   ("is_question_not_trivial", Jv.jbool true), ("do_answer_levels_exist", Jv.jbool true),
   ("are_answer_levels_valid", Jv.jbool true), ("has_evaluation_criteria", Jv.jbool true),
   ("are_answer_levels_different", Jv.jbool true), ("do_tests_exist", Jv.jbool true),
   ("do_tags_exist", Jv.jbool true), ("do_test_options_exist", Jv.jbool true),
   ("is_question_text_different_from_existing_questions", Jv.jbool true),
   ("are_test_options_numbered", Jv.jbool true),
   ("does_answer_contain_option_number", Jv.jbool true),
   ("are_code_blocks_marked_if_they_exist", Jv.jbool true),
   ("does_snippet_have_question", Jv.jbool true),
   ("does_snippet_have_code", Jv.jbool true),
   ("clarity_score", Jv.jnum "8"), ("relevance_score", Jv.jnum "8"),
   ("difficulty_score", Jv.jnum "8"), ("structure_score", Jv.jnum "8"),
   ("code_quality_score", Jv.jnum "8"), ("quality_score", Jv.jnum "8"),
   ("clarity_feedback", Jv.jstr "f"), ("relevance_feedback", Jv.jstr "f"),
   ("difficulty_feedback", Jv.jstr "f"), ("structure_feedback", Jv.jstr "f"),
   ("code_quality_feedback", Jv.jstr "f"), ("comments", Jv.jstr "c"),
   ("recommendations", Jv.jarr [Jv.jstr "r"]), ("passed", Jv.jbool false)]

/-- The validation object produced from `docC4`: `passed` recomputed to
`true` from `quality_score = 8`. -/
def vC4 : ValidationT :=
  ⟨true, true, true, true, true, true, true, true, true, true, true, true,
   true, true, true, true, 8, 8, 8, 8, 8, 8, "f", "f", "f", "f", "f", "c",
   ["r"], true⟩

/-- The hard-cut test input of the spec: a truncated response with no
closing brace at all. -/
def c1input : String := "\x7b\"a\": 1, \"b\": \"unterminated"

/-- The total-failure test input of the spec. -/
def c2input : String := "I cannot answer that."

/-! ### The no-bare-quote scan used by the strict-stage impossibility
proof -/

/-- Invariant `qok prevBS l`: scanning `l` with `prevBS` = "the previous character
was a backslash", every double quote is immediately preceded by a
backslash.  The output of `escape_json_strings` always satisfies
`qok false`, and no such text containing a quote is valid JSON. -/
def qok : Bool → List Char → Bool
  | _, [] => true
  | p, c :: r => (if c = '"' then p else true) && qok (c = '\\') r

/-! ## Helper lemmas -/

theorem except_bind_ok {α β : Type} {e : Except String α}
    {f : α → Except String β} {v : β} :
    (e >>= f) = Except.ok v ↔ ∃ a, e = Except.ok a ∧ f a = Except.ok v := by
  cases e <;> simp [Bind.bind, Except.bind]

/-! ## Claim theorems -/

/-- C1 (counterexample): on the input `'{"a": 1, "b": "unterminated'`
— which contains no `}` at all — `_parse_gemini_response` raises
(`ValueError`), instead of producing a document containing `"a": 1`
without error as claimed. -/
theorem c1_gemini_raises_on_hard_cut_input :
    parse_gemini_response (fun _ => none) c1input =
      Except.error "Could not find JSON object in Gemini response." := rfl

/-- C1 (amended): on `'{"a": 1, "b": "unterminated'` both tolerant
pipelines raise a parse error, whatever the lenient parser does: the
input contains no closing brace, so the raw slice stage and the regex
extraction stage find no candidate, and the hard-cut stage (which needs
a `}` to cut at, and is moreover dead code in the Claude parser) is
never reached.  No document is produced. -/
theorem c1_hard_cut_input_raises (dj dj' : String → Option Jv) :
    parse_claude_response dj c1input =
      Except.error "Could not find JSON object in Claude response." ∧
    parse_gemini_response dj' c1input =
      Except.error "Could not find JSON object in Gemini response." := ⟨rfl, rfl⟩

/-- C2 (counterexample): `fix_malformed_json`, one of the cited decoding
entry points, does not raise on the undecodable text
`"I cannot answer that."`: it returns the default object
`{"error": "Bad JSON"}`, contradicting "never returns a default or
empty object in place of a result". -/
theorem c2_fix_malformed_returns_default_object :
    fix_malformed_json c2input = Jv.jobj [("error", Jv.jstr "Bad JSON")] := rfl

/-- C2 (amended): on `"I cannot answer that."` (no JSON-like substring)
the Claude and Gemini response parsers do raise a decode-failure error,
whatever the lenient parser does; but the legacy `fix_malformed_json`
helper instead returns the default object (see the counterexample), and
the agents' errors carry a fixed message rather than the offending
text. -/
theorem c2_total_failure_raises_in_agents (dj dj' : String → Option Jv) :
    parse_claude_response dj c2input =
      Except.error "Could not find JSON object in Claude response." ∧
    parse_gemini_response dj' c2input =
      Except.error "Could not find JSON object in Gemini response." := ⟨rfl, rfl⟩

/-- C3 (code bug): coercion of a Question-shaped document with a missing
`advanced` level raises a schema-validation error instead of returning a
stubbed Question: the stub synthesized by `_process_generation_response`
uses the key `evaluation_criteria`, while `AnswerLevelModel` requires
`evaluationCriteria`, so the stub itself fails validation ("Field
required").  A document missing all three levels raises as well (as the
claim also states, though through the same stub slip rather than by
design). -/
theorem c3_stub_fill_still_raises :
    google_process_generation argsMissingAdv "iOS" "Swift" =
      Except.error "evaluationCriteria: Field required" ∧
    isErr (google_process_generation argsMissingAll "iOS" "Swift") = true := ⟨rfl, rfl⟩

/-- C4: every validation object returned by the validation coercion
satisfies `passed = (quality_score ≥ 7)`; and on the concrete document
with `quality_score = 8, passed = false`, coercion succeeds and returns
`passed = true` (the pydantic validator recomputes `passed` from the
score before the openai cross-check runs). -/
theorem c4_validation_passed_invariant :
    (∀ d v, openai_process_validation d = Except.ok v →
        v.passed = decide (7 ≤ v.quality_score)) ∧
    openai_process_validation docC4 = Except.ok vC4 ∧ vC4.passed = true := by
  refine ⟨?_, rfl, rfl⟩
  intro d v h
  unfold openai_process_validation at h
  rcases except_bind_ok.mp h with ⟨v', hv', hrest⟩
  simp only [] at hrest
  split at hrest
  · split at hrest
    · rename_i hpass
      cases hrest
      exact hpass
    · cases hrest
  · cases hrest

/-- C4 witness: the invariant applied at the concrete document. -/
theorem c4_validation_passed_invariant_witness :
    vC4.passed = decide (7 ≤ vC4.quality_score) :=
  c4_validation_passed_invariant.1 docC4 vC4 (by rfl)

/-- C5: a bare-string topic `"Memory Management"` with request context
`platform = "Apple", technology = "ObjC"` is rewritten by the autofix
into the topic object with name, platform and technology taken from the
context. -/
theorem c5_topic_autofix_uses_request_context :
    jLookup (googleAutofix argsC5 "Apple" "ObjC") "topic" =
      some (Jv.jobj [("name", Jv.jstr "Memory Management"),
                     ("platform", Jv.jstr "Apple"),
                     ("technology", Jv.jstr "ObjC")]) := rfl

/-- C6 (counterexample): the string escaper `escape_json_strings` is not
idempotent: applied twice to the one-character text `"` it yields a
different string than applied once (each pass doubles the escaping). -/
theorem c6_escape_json_strings_not_idempotent :
    escape_json_strings (escape_json_strings "\"") ≠ escape_json_strings "\"" := by
  decide

/-- C7: the outer-fence stripper removes the fence pair exactly when it
wraps the whole trimmed response: the fenced input is stripped to its
body, while the input with surrounding prose is returned unchanged. -/
theorem c7_fence_stripping_precision :
    remove_triple_backticks_from_outer_markdown "```json\n\x7b\"a\":1\x7d\n```" =
      "\x7b\"a\":1\x7d" ∧
    remove_triple_backticks_from_outer_markdown
        "some prose ```json \x7b\"a\":1\x7d ``` more prose" =
      "some prose ```json \x7b\"a\":1\x7d ``` more prose" := ⟨rfl, rfl⟩

/-- C9 (code bug): `fix_missing_commas_in_json` does not insert a comma
between adjacent pairs; its character class is broken (it is never
closed where intended), so the substitution appends `", "` after every
brace, quote, digit, whitespace and several other characters.  On its
own docstring example `'{"a": 1 "b": 2}'` it produces a mangled string
instead of the documented `'{"a": 1, "b": 2}'`. -/
theorem c9_fix_missing_commas_mangles_its_own_example :
    fix_missing_commas_in_json "\x7b\"a\": 1 \"b\": 2\x7d" =
      "\x7b, \", a\", : , 1,  , \", b\", : , 2, \x7d, " ∧
    fix_missing_commas_in_json "\x7b\"a\": 1 \"b\": 2\x7d" ≠
      "\x7b\"a\": 1, \"b\": 2\x7d" := ⟨rfl, by decide⟩

/-- The scan loop of the unterminated-string closer copies its input
and appends one quote exactly when the scan ends inside a string. -/
theorem fixUntermGo_append (l : List Char) : ∀ inS esc,
    fixUntermGo inS esc l =
      l ++ (if endsInStringGo inS esc l then ['"'] else []) := by
  induction l with
  | nil =>
      intro inS esc
      cases inS <;> simp [fixUntermGo, endsInStringGo]
  | cons c r ih =>
      intro inS esc
      cases inS with
      | false => simp [fixUntermGo, endsInStringGo, ih]
      | true =>
        cases esc with
        | true => simp [fixUntermGo, endsInStringGo, ih]
        | false =>
          by_cases hb : c = '\\'
          · simp [fixUntermGo, endsInStringGo, hb, ih]
          · by_cases hq : c = '"'
            · simp [fixUntermGo, endsInStringGo, hb, hq, ih]
            · simp [fixUntermGo, endsInStringGo, hb, hq, ih]

/-- C8: the unterminated-string closer returns its input followed by
exactly one closing quote when the escape-aware scan ends inside a
quoted string, and returns the input unchanged otherwise; in
particular it maps `'{"a": "hel'` to `'{"a": "hel"'`. -/
theorem c8_close_unterminated_strings :
    (∀ s : String, fix_unterminated_strings_in_json s =
        if endsInsideString s then s ++ "\"" else s) ∧
    fix_unterminated_strings_in_json "\x7b\"a\": \"hel" = "\x7b\"a\": \"hel\"" ∧
    endsInsideString "\x7b\"a\": \"hel" = true := by
  refine ⟨?_, rfl, rfl⟩
  intro s
  cases s with
  | mk d =>
    show String.mk (fixUntermGo false false d) = _
    rw [fixUntermGo_append]
    by_cases h : endsInStringGo false false d = true
    · simp only [endsInsideString, h, if_true]
      rfl
    · simp only [endsInsideString] at h ⊢
      simp only [h, if_false, Bool.false_eq_true, List.append_nil]

/-- The control-character escaper scan is idempotent from every state. -/
theorem escNlGo_idem (l : List Char) : ∀ inS esc,
    escNlGo inS esc (escNlGo inS esc l) = escNlGo inS esc l := by
  induction l with
  | nil => intro inS esc; simp [escNlGo]
  | cons c r ih =>
      intro inS esc
      cases inS with
      | false => simp [escNlGo, ih]
      | true =>
        cases esc with
        | true => simp [escNlGo, ih]
        | false =>
          by_cases hb : c = '\\'
          · simp [escNlGo, hb, ih]
          · by_cases hq : c = '"'
            · simp [escNlGo, hb, hq, ih]
            · by_cases hn : c = '\n'
              · simp [escNlGo, hb, hq, hn, ih]
              · by_cases hr : c = '\r'
                · simp [escNlGo, hb, hq, hn, hr, ih]
                · simp [escNlGo, hb, hq, hn, hr, ih]

/-- C6 (amended): among the cited sanitizers, the control-character
escaper `escape_newlines_in_json_strings` is idempotent: applying it
twice yields the same string as applying it once, for every input.
(The string escaper is not idempotent: see the counterexample.) -/
theorem c6_control_char_escaper_idempotent (s : String) :
    escape_newlines_in_json_strings (escape_newlines_in_json_strings s) =
      escape_newlines_in_json_strings s :=
  congrArg String.mk (escNlGo_idem s.data false false)

/-! ### Lemmas for C10: the strict Claude stage cannot succeed on any
response containing a double quote. -/

theorem mem_dropWhile_not {c : Char} {p : Char → Bool} :
    ∀ {l : List Char}, c ∈ l → p c = false → c ∈ l.dropWhile p := by
  intro l hm hp
  induction l with
  | nil => cases hm
  | cons a r ih =>
      rw [List.dropWhile_cons]
      by_cases ha : p a = true
      · simp only [ha, if_true]
        cases hm with
        | head => rw [hp] at ha; cases ha
        | tail _ hr => exact ih hr
      · simp only [ha, if_false, Bool.false_eq_true]
        exact hm

theorem mem_dropTrailing_not {c : Char} {p : Char → Bool} {l : List Char}
    (hm : c ∈ l) (hp : p c = false) : c ∈ dropTrailing p l := by
  unfold dropTrailing
  rw [List.mem_reverse]
  exact mem_dropWhile_not (List.mem_reverse.mpr hm) hp

theorem mem_pyStrip {c : Char} {l : List Char} (hm : c ∈ l)
    (hp : isPySpace c = false) : c ∈ pyStrip l :=
  mem_dropTrailing_not (mem_dropWhile_not hm hp) hp

/-- Dropping a while-prefix from a list ending in a backtick-headed
suffix keeps that suffix, provided the predicate rejects backticks. -/
theorem dropWhile_keeps_suffix {p : Char → Bool} (hp : p btick = false)
    (B : List Char) :
    ∀ W : List Char, ∃ W', (W ++ btick :: B).dropWhile p = W' ++ btick :: B := by
  intro W
  induction W with
  | nil =>
      refine ⟨[], ?_⟩
      rw [List.nil_append, List.dropWhile_cons, hp]
      simp
  | cons a W ih =>
      rw [List.cons_append, List.dropWhile_cons]
      by_cases ha : p a = true
      · simpa [ha] using ih
      · exact ⟨a :: W, by simp [ha]⟩

/-- Quotes survive the outer-fence stripper: every double quote of the
input occurs in the output (on a regex match, the dropped parts are only
backticks, ASCII letters and whitespace). -/
theorem quote_mem_removeOuterList {l : List Char} (hm : '"' ∈ l) :
    '"' ∈ removeOuterList l := by
  unfold removeOuterList
  dsimp only
  split
  · rename_i hcon
    simp only [Bool.and_eq_true, decide_eq_true_eq] at hcon
    obtain ⟨⟨h1, h2⟩, h3⟩ := hcon
    set t := pyStrip l with ht
    have hqt : '"' ∈ t := mem_pyStrip hm (by decide)
    -- t = fen ++ t.drop 3
    have hsplit : t.take 3 ++ t.drop 3 = t := List.take_append_drop 3 t
    have hqd : '"' ∈ t.drop 3 := by
      have : '"' ∈ t.take 3 ++ t.drop 3 := by rw [hsplit]; exact hqt
      rcases List.mem_append.mp this with h | h
      · rw [h1] at h
        simp [btick] at h
      · exact h
    -- t.drop 3 ends with the closing fence
    have hrev : t.reverse.take 3 ++ t.reverse.drop 3 = t.reverse :=
      List.take_append_drop 3 t.reverse
    rw [h2] at hrev
    have ht_eq : t = (t.reverse.drop 3).reverse ++ [btick, btick, btick] := by
      have := congrArg List.reverse hrev
      rw [List.reverse_reverse] at this
      rw [← this]
      simp
    have hlen : 3 ≤ (t.reverse.drop 3).reverse.length := by
      have h4 : (t.reverse.drop 3).reverse.length = t.length - 3 := by
        simp
      omega
    have hdrop3 : t.drop 3 =
        ((t.reverse.drop 3).reverse.drop 3) ++ [btick, btick, btick] := by
      conv_lhs => rw [ht_eq]
      rw [List.drop_append_of_le_length hlen]
    -- the two dropWhile passes keep the closing fence
    have hfen : [btick, btick, btick] = btick :: [btick, btick] := rfl
    obtain ⟨w1, hw1⟩ := dropWhile_keeps_suffix (p := Char.isAlpha) (by decide)
      [btick, btick] ((t.reverse.drop 3).reverse.drop 3)
    obtain ⟨w2, hw2⟩ := dropWhile_keeps_suffix (p := isPySpace) (by decide)
      [btick, btick] w1
    have ht3 : ((t.drop 3).dropWhile Char.isAlpha).dropWhile isPySpace =
        w2 ++ btick :: [btick, btick] := by
      rw [hdrop3, hfen, hw1, hw2]
    -- quotes are neither letters nor whitespace, so they reach t3 and w2
    have hq3 : '"' ∈ ((t.drop 3).dropWhile Char.isAlpha).dropWhile isPySpace :=
      mem_dropWhile_not (mem_dropWhile_not hqd (by decide)) (by decide)
    rw [ht3] at hq3
    have hqw2 : '"' ∈ w2 := by
      rcases List.mem_append.mp hq3 with h | h
      · exact h
      · simp [btick] at h
    -- the reverse / drop 3 / dropWhile tail processing keeps the quote
    rw [ht3]
    have : (w2 ++ btick :: [btick, btick]).reverse.drop 3 = w2.reverse := by
      rw [show (btick :: [btick, btick] : List Char) = [btick, btick, btick] from rfl]
      rw [List.reverse_append]
      rw [show ([btick, btick, btick] : List Char).reverse = [btick, btick, btick] from rfl]
      exact List.drop_left [btick, btick, btick] w2.reverse
    rw [this]
    rw [List.mem_reverse]
    exact mem_dropWhile_not (List.mem_reverse.mpr hqw2) (by decide)
  · exact hm

/-- After the quote-escaping pass every double quote in the text is
immediately preceded by a backslash, from any scan state. -/
theorem qok_replq (l : List Char) : ∀ p, qok p (replChar '"' ['\\', '"'] l) = true := by
  induction l with
  | nil => intro p; rfl
  | cons c r ih =>
      intro p
      simp only [replChar, List.flatMap_cons] at ih ⊢
      by_cases hc : c = '"'
      · subst hc
        simp [qok, ih]
      · simp [qok, hc, ih]

/-- The control-character replacement passes preserve the
quote-after-backslash invariant (the replacement `['\\', x]` neither
contains a quote nor starts a new escape at its end). -/
theorem qok_repl_ctrl {t x : Char} (ht : t ≠ '"') (htb : t ≠ '\\')
    (hx : x ≠ '"') (hxb : x ≠ '\\') (l : List Char) :
    ∀ p, qok p l = true → qok p (replChar t ['\\', x] l) = true := by
  induction l with
  | nil => intro p _; rfl
  | cons c r ih =>
      intro p hq
      simp only [qok, Bool.and_eq_true] at hq
      obtain ⟨hq1, hq2⟩ := hq
      simp only [replChar, List.flatMap_cons] at ih ⊢
      by_cases hc : c = t
      · subst hc
        rw [if_pos rfl]
        have hq2' : qok false r = true := by
          rwa [decide_eq_false htb] at hq2
        simp [qok, hx, hxb, ih false hq2']
      · rw [if_neg hc]
        simp only [List.singleton_append, qok, Bool.and_eq_true]
        exact ⟨hq1, ih _ hq2⟩

/-- A character absent from both the list and the replacement chunk is
absent from the replacement output. -/
theorem not_mem_replChar {a t : Char} {rep l : List Char}
    (hl : a ∉ l) (hr : a ∉ rep) : a ∉ replChar t rep l := by
  unfold replChar
  intro hmem
  rcases List.mem_flatMap.mp hmem with ⟨c, hc, hin⟩
  by_cases hct : c = t
  · rw [hct, if_pos rfl] at hin
    exact hr hin
  · rw [if_neg hct] at hin
    rw [List.mem_singleton.mp hin] at hl
    exact hl hc

/-- The replaced character itself is absent from the output when the
replacement chunk does not contain it. -/
theorem not_mem_replChar_self {t : Char} {rep l : List Char}
    (hr : t ∉ rep) : t ∉ replChar t rep l := by
  unfold replChar
  intro hmem
  rcases List.mem_flatMap.mp hmem with ⟨c, _, hin⟩
  by_cases hct : c = t
  · rw [hct, if_pos rfl] at hin
    exact hr hin
  · rw [if_neg hct] at hin
    exact hct (List.mem_singleton.mp hin).symm

/-- A character distinct from the pattern survives replacement. -/
theorem mem_replChar_ne {a t : Char} {rep l : List Char}
    (hm : a ∈ l) (hne : a ≠ t) : a ∈ replChar t rep l := by
  unfold replChar
  apply List.mem_flatMap.mpr
  exact ⟨a, hm, by rw [if_neg hne]; exact List.mem_singleton.mpr rfl⟩

/-- A quote in the input yields a quote in the quote-escaping pass. -/
theorem mem_replq {l : List Char} (hm : '"' ∈ l) :
    '"' ∈ replChar '"' ['\\', '"'] l := by
  unfold replChar
  apply List.mem_flatMap.mpr
  exact ⟨'"', hm, by rw [if_pos rfl]; simp⟩

/-- Each `re.sub(r'(?<!\\\\)X', …)` pass is the identity when `X` does not occur. -/
theorem subNB_id {t : Char} {rep : List Char} :
    ∀ (l : List Char) (prev : Option Char), t ∉ l →
      subNotAfterBackslash t rep prev l = l := by
  intro l
  induction l with
  | nil => intro prev _; rfl
  | cons c r ih =>
      intro prev hnm
      unfold subNotAfterBackslash
      have hct : c ≠ t := fun h => hnm (h ▸ List.mem_cons_self c r)
      simp only [decide_eq_false hct, Bool.false_and, Bool.false_eq_true,
        if_false, List.singleton_append, List.cons.injEq, true_and]
      exact ih (some c) (fun h => hnm (List.mem_cons_of_mem c h))

/-- The three `re.sub(r'(?<!\\)…')` passes of `escape_json_strings` are
the identity: the literal control characters were already replaced by
the preceding `str.replace` passes. -/
theorem escapeJsonList_eq (l : List Char) :
    escapeJsonList l =
      replChar '\t' ['\\', 't'] (replChar '\r' ['\\', 'r'] (replChar '\n' ['\\', 'n']
        (replChar '"' ['\\', '"'] (replChar '\\' ['\\', '\\'] l)))) := by
  unfold escapeJsonList
  dsimp only
  set l5 := replChar '\t' ['\\', 't'] (replChar '\r' ['\\', 'r'] (replChar '\n' ['\\', 'n']
    (replChar '"' ['\\', '"'] (replChar '\\' ['\\', '\\'] l)))) with h5
  have hn3 : '\n' ∉ replChar '\n' ['\\', 'n']
      (replChar '"' ['\\', '"'] (replChar '\\' ['\\', '\\'] l)) :=
    not_mem_replChar_self (by decide)
  have hn4 : '\n' ∉ replChar '\r' ['\\', 'r'] (replChar '\n' ['\\', 'n']
      (replChar '"' ['\\', '"'] (replChar '\\' ['\\', '\\'] l))) :=
    not_mem_replChar hn3 (by decide)
  have hn5 : '\n' ∉ l5 := not_mem_replChar hn4 (by decide)
  have ht5 : '\t' ∉ l5 := not_mem_replChar_self (by decide)
  have hr4 : '\r' ∉ replChar '\r' ['\\', 'r'] (replChar '\n' ['\\', 'n']
      (replChar '"' ['\\', '"'] (replChar '\\' ['\\', '\\'] l))) :=
    not_mem_replChar_self (by decide)
  have hr5 : '\r' ∉ l5 := not_mem_replChar hr4 (by decide)
  rw [subNB_id l5 none hn5, subNB_id l5 none ht5, subNB_id l5 none hr5]

/-- The output of the string escaper always satisfies the
quote-after-backslash invariant. -/
theorem qok_escapeJsonList (l : List Char) : qok false (escapeJsonList l) = true := by
  rw [escapeJsonList_eq]
  apply qok_repl_ctrl (by decide) (by decide) (by decide) (by decide)
  apply qok_repl_ctrl (by decide) (by decide) (by decide) (by decide)
  apply qok_repl_ctrl (by decide) (by decide) (by decide) (by decide)
  exact qok_replq _ false

/-- A quote in the input survives the string escaper. -/
theorem mem_escapeJsonList {l : List Char} (hm : '"' ∈ l) :
    '"' ∈ escapeJsonList l := by
  rw [escapeJsonList_eq]
  apply mem_replChar_ne _ (by decide)
  apply mem_replChar_ne _ (by decide)
  apply mem_replChar_ne _ (by decide)
  exact mem_replq (mem_replChar_ne hm (by decide))

/-- Whitespace skipping changes neither the quote count nor the
invariant (whitespace is neither a quote nor a backslash). -/
theorem skipWs_count (l : List Char) : (skipWs l).count '"' = l.count '"' := by
  induction l with
  | nil => rfl
  | cons c r ih =>
      unfold skipWs
      split
      · rename_i h
        rw [ih, List.count_cons_of_ne]
        intro hc
        subst hc
        simp at h
      · rfl

/-- Stepping over a non-backslash character preserves the invariant. -/
theorem qok_tail {c : Char} {r : List Char} (h : qok false (c :: r) = true)
    (hb : c ≠ '\\') : qok false r = true := by
  simp only [qok, Bool.and_eq_true] at h
  obtain ⟨h1, h2⟩ := h
  rwa [decide_eq_false hb] at h2

theorem skipWs_qok {l : List Char} (h : qok false l = true) :
    qok false (skipWs l) = true := by
  induction l with
  | nil => exact h
  | cons c r ih =>
      unfold skipWs
      split
      · rename_i hws
        apply ih
        have hb : c ≠ '\\' := by
          simp only [Bool.or_eq_true, decide_eq_true_eq] at hws
          rcases hws with ((h1 | h1) | h1) | h1 <;> subst h1 <;> decide
        exact qok_tail h hb
      · exact h

/-- A bare quote at the head refutes the invariant. -/
theorem qok_head_quote {r : List Char} : qok false ('"' :: r) = false := by
  simp [qok]

/-- Dropping a quote-free, backslash-free chunk preserves the invariant
and the quote count. -/
theorem qok_drop_chunk :
    ∀ (x r : List Char), (∀ c ∈ x, c ≠ '"' ∧ c ≠ '\\') →
      (qok false (x ++ r) = true → qok false r = true) ∧
      (x ++ r).count '"' = r.count '"' := by
  intro x
  induction x with
  | nil => intro r _; exact ⟨fun h => h, rfl⟩
  | cons a x ih =>
      intro r hall
      obtain ⟨ha1, ha2⟩ := hall a (List.mem_cons_self a x)
      have hrest := ih r (fun c hc => hall c (List.mem_cons_of_mem a hc))
      constructor
      · intro h
        exact hrest.1 (qok_tail h ha2)
      · rw [List.cons_append, List.count_cons_of_ne (Ne.symm ha1), hrest.2]

/-- Lemma: `pAtom` consumes no quotes: on success the quote count is unchanged
and the invariant still holds on the remainder. -/
theorem pAtom_consumes {t : List Char} {v : Jv} {r : List Char}
    (hq : qok false t = true) (hp : pAtom t = some (v, r)) :
    t.count '"' = r.count '"' ∧ qok false r = true := by
  unfold pAtom at hp
  have lit : ∀ (k : Nat) (w : List Char), t.take k = w →
      (∀ c ∈ w, c ≠ '"' ∧ c ≠ '\\') → r = t.drop k →
      t.count '"' = r.count '"' ∧ qok false r = true := by
    intro k w hk hall hr
    have hsplit : w ++ t.drop k = t := by rw [← hk]; exact List.take_append_drop k t
    subst hr
    have hch := qok_drop_chunk w (t.drop k) hall
    rw [hsplit] at hch
    exact ⟨hch.2, hch.1 hq⟩
  split at hp
  · rename_i h
    obtain ⟨rfl, rfl⟩ : v = Jv.jbool true ∧ r = t.drop 4 := by
      cases hp; exact ⟨rfl, rfl⟩
    exact lit 4 _ h (by decide) rfl
  · split at hp
    · rename_i h
      obtain ⟨rfl, rfl⟩ : v = Jv.jbool false ∧ r = t.drop 5 := by
        cases hp; exact ⟨rfl, rfl⟩
      exact lit 5 _ h (by decide) rfl
    · split at hp
      · rename_i h
        obtain ⟨rfl, rfl⟩ : v = Jv.jnull ∧ r = t.drop 4 := by
          cases hp; exact ⟨rfl, rfl⟩
        exact lit 4 _ h (by decide) rfl
      · split at hp
        · rename_i h
          obtain ⟨rfl, rfl⟩ : v = Jv.jnum "NaN" ∧ r = t.drop 3 := by
            cases hp; exact ⟨rfl, rfl⟩
          exact lit 3 _ h (by decide) rfl
        · split at hp
          · rename_i h
            obtain ⟨rfl, rfl⟩ : v = Jv.jnum "Infinity" ∧ r = t.drop 8 := by
              cases hp; exact ⟨rfl, rfl⟩
            exact lit 8 _ h (by decide) rfl
          · split at hp
            · rename_i h
              obtain ⟨rfl, rfl⟩ : v = Jv.jnum "-Infinity" ∧ r = t.drop 9 := by
                cases hp; exact ⟨rfl, rfl⟩
              exact lit 9 _ h (by decide) rfl
            · -- number branch
              cases t with
              | nil => simp at hp
              | cons c rest =>
                  simp only [] at hp
                  split at hp
                  · split at hp
                    · obtain ⟨rfl, rfl⟩ : v = Jv.jnum ⟨(c :: rest).takeWhile numChar⟩ ∧
                          r = (c :: rest).dropWhile numChar := by
                        cases hp; exact ⟨rfl, rfl⟩
                      have hall : ∀ a ∈ (c :: rest).takeWhile numChar,
                          a ≠ '"' ∧ a ≠ '\\' := by
                        intro a ha
                        have hnum := List.mem_takeWhile_imp ha
                        constructor <;> rintro rfl <;> simp [numChar] at hnum
                      have hsplit : (c :: rest).takeWhile numChar ++
                          (c :: rest).dropWhile numChar = c :: rest :=
                        List.takeWhile_append_dropWhile numChar (c :: rest)
                      have hch := qok_drop_chunk ((c :: rest).takeWhile numChar)
                        ((c :: rest).dropWhile numChar) hall
                      rw [hsplit] at hch
                      exact ⟨hch.2, hch.1 hq⟩
                    · cases hp
                  · cases hp

/-- Under the quote-after-backslash invariant, no parsing function of
the `json.loads` model ever consumes a double quote: strings cannot be
opened (their opening quote would have to be bare), so every successful
parse leaves all quotes in the remainder, with the invariant intact. -/
theorem parse_consumes_no_quote : ∀ n : Nat,
    (∀ s v r, qok false s = true → pVal n s = some (v, r) →
       s.count '"' = r.count '"' ∧ qok false r = true) ∧
    (∀ s v r, qok false s = true → pObj n s = some (v, r) →
       s.count '"' = r.count '"' ∧ qok false r = true) ∧
    (∀ acc s v r, qok false s = true → pMembers n acc s = some (v, r) →
       s.count '"' = r.count '"' ∧ qok false r = true) ∧
    (∀ s v r, qok false s = true → pArr n s = some (v, r) →
       s.count '"' = r.count '"' ∧ qok false r = true) ∧
    (∀ acc s v r, qok false s = true → pElems n acc s = some (v, r) →
       s.count '"' = r.count '"' ∧ qok false r = true) := by
  intro n
  induction n with
  | zero =>
      refine ⟨?_, ?_, ?_, ?_, ?_⟩ <;> intros <;> simp_all [pVal, pObj, pMembers, pArr, pElems]
  | succ n ih =>
      obtain ⟨ihV, ihO, ihM, ihA, ihE⟩ := ih
      refine ⟨?_, ?_, ?_, ?_, ?_⟩
      · -- pVal
        intro s v r hqs hp
        simp only [pVal] at hp
        have hqw := skipWs_qok hqs
        have hcw := skipWs_count s
        cases hws : skipWs s with
        | nil => rw [hws] at hp; cases hp
        | cons c r0 =>
            rw [hws] at hp hqw hcw
            dsimp only at hp
            by_cases h1 : c = lbrace
            · rw [if_pos h1] at hp
              obtain ⟨hc1, hq1⟩ := ihO r0 v r (qok_tail hqw (by rw [h1]; decide)) hp
              refine ⟨?_, hq1⟩
              rw [← hcw, List.count_cons_of_ne (by rw [h1]; decide), hc1]
            · rw [if_neg h1] at hp
              by_cases h2 : c = '['
              · rw [if_pos h2] at hp
                obtain ⟨hc1, hq1⟩ := ihA r0 v r (qok_tail hqw (by rw [h2]; decide)) hp
                refine ⟨?_, hq1⟩
                rw [← hcw, List.count_cons_of_ne (by rw [h2]; decide), hc1]
              · rw [if_neg h2] at hp
                by_cases h3 : c = '"'
                · exfalso
                  rw [h3, qok_head_quote] at hqw
                  cases hqw
                · rw [if_neg h3] at hp
                  obtain ⟨hc1, hq1⟩ := pAtom_consumes hqw hp
                  exact ⟨by rw [← hcw, hc1], hq1⟩
      · -- pObj
        intro s v r hqs hp
        simp only [pObj] at hp
        have hqw := skipWs_qok hqs
        have hcw := skipWs_count s
        cases hws : skipWs s with
        | nil => rw [hws] at hp; cases hp
        | cons c r0 =>
            rw [hws] at hp hqw hcw
            dsimp only at hp
            by_cases h1 : c = rbrace
            · rw [if_pos h1] at hp
              cases hp
              refine ⟨?_, qok_tail hqw (by rw [h1]; decide)⟩
              rw [← hcw, List.count_cons_of_ne (by rw [h1]; decide)]
            · rw [if_neg h1] at hp
              by_cases h2 : c = '"'
              · exfalso
                rw [h2, qok_head_quote] at hqw
                cases hqw
              · rw [if_neg h2] at hp
                cases hp
      · -- pMembers
        intro acc s v r hqs hp
        simp only [pMembers] at hp
        have hqw := skipWs_qok hqs
        have hcw := skipWs_count s
        cases hws : skipWs s with
        | nil => rw [hws] at hp; cases hp
        | cons c r0 =>
            rw [hws] at hp hqw hcw
            dsimp only at hp
            by_cases h1 : c = rbrace
            · rw [if_pos h1] at hp
              cases hp
              refine ⟨?_, qok_tail hqw (by rw [h1]; decide)⟩
              rw [← hcw, List.count_cons_of_ne (by rw [h1]; decide)]
            · rw [if_neg h1] at hp
              by_cases h2 : c = ','
              · rw [if_pos h2] at hp
                have hq0 : qok false r0 = true := qok_tail hqw (by rw [h2]; decide)
                split at hp
                · rename_i r1 heq
                  exfalso
                  have hq1 := skipWs_qok hq0
                  rw [heq, qok_head_quote] at hq1
                  cases hq1
                · cases hp
              · rw [if_neg h2] at hp
                cases hp
      · -- pArr
        intro s v r hqs hp
        simp only [pArr] at hp
        have hqw := skipWs_qok hqs
        have hcw := skipWs_count s
        cases hws : skipWs s with
        | nil => rw [hws] at hp; cases hp
        | cons c r0 =>
            rw [hws] at hp hqw hcw
            dsimp only at hp
            by_cases h1 : c = ']'
            · rw [if_pos h1] at hp
              cases hp
              refine ⟨?_, qok_tail hqw (by rw [h1]; decide)⟩
              rw [← hcw, List.count_cons_of_ne (by rw [h1]; decide)]
            · rw [if_neg h1] at hp
              cases hpv : pVal n (c :: r0) with
              | none => rw [hpv] at hp; cases hp
              | some p =>
                  obtain ⟨v2, r2⟩ := p
                  rw [hpv] at hp
                  obtain ⟨hcV, hqV⟩ := ihV (c :: r0) v2 r2 hqw hpv
                  obtain ⟨hcE, hqE⟩ := ihE [v2] r2 v r hqV hp
                  exact ⟨by rw [← hcw, hcV, hcE], hqE⟩
      · -- pElems
        intro acc s v r hqs hp
        simp only [pElems] at hp
        have hqw := skipWs_qok hqs
        have hcw := skipWs_count s
        cases hws : skipWs s with
        | nil => rw [hws] at hp; cases hp
        | cons c r0 =>
            rw [hws] at hp hqw hcw
            dsimp only at hp
            by_cases h1 : c = ']'
            · rw [if_pos h1] at hp
              cases hp
              refine ⟨?_, qok_tail hqw (by rw [h1]; decide)⟩
              rw [← hcw, List.count_cons_of_ne (by rw [h1]; decide)]
            · rw [if_neg h1] at hp
              by_cases h2 : c = ','
              · rw [if_pos h2] at hp
                have hq0 : qok false r0 = true := qok_tail hqw (by rw [h2]; decide)
                cases hpv : pVal n r0 with
                | none => rw [hpv] at hp; cases hp
                | some p =>
                    obtain ⟨v2, r2⟩ := p
                    rw [hpv] at hp
                    obtain ⟨hcV, hqV⟩ := ihV r0 v2 r2 hq0 hpv
                    obtain ⟨hcE, hqE⟩ := ihE (acc ++ [v2]) r2 v r hqV hp
                    refine ⟨?_, hqE⟩
                    rw [← hcw, List.count_cons_of_ne (by rw [h2]; decide), hcV, hcE]
              · rw [if_neg h2] at hp
                cases hp

/-- The `json.loads` model rejects every text that satisfies the
quote-after-backslash invariant yet contains a double quote: a
successful parse would consume no quote, but would also have to leave a
whitespace-only remainder. -/
theorem jsonLoads_no_quote {s : String} (hq : qok false s.data = true)
    (hm : '"' ∈ s.data) : jsonLoads s = none := by
  unfold jsonLoads
  cases hp : pVal (s.data.length + 1) s.data with
  | none => rfl
  | some p =>
      obtain ⟨v, r⟩ := p
      obtain ⟨hc, _⟩ := (parse_consumes_no_quote _).1 s.data v r hq hp
      by_cases hw : skipWs r = []
      · exfalso
        have h0 : r.count '"' = 0 := by
          have hsw := skipWs_count r
          rw [hw] at hsw
          exact hsw.symm
        have h1 : s.data.count '"' = 0 := by rw [hc, h0]
        exact (List.count_eq_zero.mp h1) hm
      · simp [hw]

/-- Unfolding equations for the string-level wrappers (stated once so
rewriting never forces deep whnf of the composed pipeline). -/
theorem escape_json_strings_data (t : String) :
    (escape_json_strings t).data = escapeJsonList t.data := rfl

theorem fix_unterminated_data (t : String) :
    (fix_unterminated_strings_in_json t).data = fixUntermGo false false t.data := rfl

theorem remove_outer_data (t : String) :
    (remove_triple_backticks_from_outer_markdown t).data = removeOuterList t.data := rfl

/-- The strict first stage of `_parse_claude_response` fails on every
response text containing a double quote: the quote survives the fence
strip and the unterminated-string fix, the escaper then backslashes it,
and no JSON text whose quotes are all escaped parses. -/
theorem claude_strict_none (s : String) (hm : '"' ∈ s.data) :
    claudeStrict s = none := by
  have hq : qok false (escape_json_strings (fix_unterminated_strings_in_json
      (remove_triple_backticks_from_outer_markdown s))).data = true := by
    rw [escape_json_strings_data]
    exact qok_escapeJsonList _
  have hm2 : '"' ∈ (escape_json_strings (fix_unterminated_strings_in_json
      (remove_triple_backticks_from_outer_markdown s))).data := by
    rw [escape_json_strings_data]
    apply mem_escapeJsonList
    rw [fix_unterminated_data, fixUntermGo_append]
    apply List.mem_append_left
    rw [remove_outer_data]
    exact quote_mem_removeOuterList hm
  unfold claudeStrict
  exact jsonLoads_no_quote hq hm2

/-- C10: for every response text containing a double quote, the strict
first stage of the Claude parser fails (`escape_json_strings` escapes
the structural quotes of the JSON itself before `json.loads` runs), so
such a response is decoded, if at all, only through the regex-extraction
fallback branch. -/
theorem c10_strict_stage_never_succeeds_with_quote
    (dj : String → Option Jv) (s : String) (hm : '"' ∈ s.data) :
    claudeStrict s = none ∧
      parse_claude_response dj s = claudeFallback dj s := by
  have h1 := claude_strict_none s hm
  refine ⟨h1, ?_⟩
  unfold parse_claude_response
  rw [h1]

/-- C10 witness: the theorem applied to the concrete response
`"hi"` and a trivial lenient parser. -/
theorem c10_strict_stage_never_succeeds_with_quote_witness :
    claudeStrict "\"hi\"" = none ∧
      parse_claude_response (fun _ => none) "\"hi\"" =
        claudeFallback (fun _ => none) "\"hi\"" :=
  c10_strict_stage_never_succeeds_with_quote (fun _ => none) "\"hi\"" (by decide)

/-- C1 witness: the amended statement instantiated with a trivial
lenient parser on both pipelines. -/
theorem c1_hard_cut_input_raises_witness :
    parse_claude_response (fun _ => none) c1input =
      Except.error "Could not find JSON object in Claude response." ∧
    parse_gemini_response (fun _ => none) c1input =
      Except.error "Could not find JSON object in Gemini response." :=
  c1_hard_cut_input_raises (fun _ => none) (fun _ => none)

/-- C2 witness: the amended statement instantiated with a trivial
lenient parser on both pipelines. -/
theorem c2_total_failure_raises_in_agents_witness :
    parse_claude_response (fun _ => none) c2input =
      Except.error "Could not find JSON object in Claude response." ∧
    parse_gemini_response (fun _ => none) c2input =
      Except.error "Could not find JSON object in Gemini response." :=
  c2_total_failure_raises_in_agents (fun _ => none) (fun _ => none)

/-- C6 witness: idempotence of the control-character escaper at a
concrete input containing a raw newline inside a string. -/
theorem c6_control_char_escaper_idempotent_witness :
    escape_newlines_in_json_strings (escape_newlines_in_json_strings "\"a\nb\"") =
      escape_newlines_in_json_strings "\"a\nb\"" :=
  c6_control_char_escaper_idempotent "\"a\nb\""

/-- C8 witness: the scan characterization applied at a concrete input
that does not end inside a string. -/
theorem c8_close_unterminated_strings_witness :
    fix_unterminated_strings_in_json "\x7b\"a\": 1\x7d" =
      if endsInsideString "\x7b\"a\": 1\x7d" then "\x7b\"a\": 1\x7d" ++ "\""
      else "\x7b\"a\": 1\x7d" :=
  c8_close_unterminated_strings.1 "\x7b\"a\": 1\x7d"

end SwiftAI
